import Mathlib

/-!
# Verification of the maggma hybrid blob store (`S3Store`) and its utilities

A shallow embedding of `src/maggma/stores/aws.py` and `src/maggma/utils.py`.

* Python dictionaries (documents) are association lists `Doc` over a `Value`
  type covering the shapes the store manipulates (strings, integers,
  datetimes, nested dictionaries).  Assignment, deletion and lookup follow
  Python `dict` semantics (assignment to an existing key keeps its position,
  a new key is appended).
* Python `datetime` values are modelled as a count of microseconds since the
  minimum representable instant.
* Fallible Python code (statements that can raise) returns `Except PyErr` /
  is folded into explicit error components.
* External collaborators (the wrapped index `Store`, `msgpack`, `zlib`,
  `pydash`, the S3 SDK) are modelled at their documented interface
  contracts; each such definition carries a comment saying what it stands
  for.
-/

/-- The value space of document fields used by the store: strings, integers,
datetimes (microseconds since the minimum instant) and nested dictionaries. -/
inductive Value where
  | str : String → Value
  | int : Int → Value
  | dt : Nat → Value
  | vdict : List (String × Value) → Value

/-- A Python dictionary / document: an insertion-ordered association list. -/
abbrev Doc := List (String × Value)

mutual
/-- Structural boolean equality on `Value` (Python `==` on these shapes). -/
def beqV : Value → Value → Bool
  | .str a, .str b => a == b
  | .int a, .int b => a == b
  | .dt a, .dt b => a == b
  | .vdict a, .vdict b => beqF a b
  | _, _ => false
/-- Structural boolean equality on field lists. -/
def beqF : List (String × Value) → List (String × Value) → Bool
  | [], [] => true
  | (k1, v1) :: r1, (k2, v2) :: r2 => k1 == k2 && beqV v1 v2 && beqF r1 r2
  | _, _ => false
end

/-- Nested induction principle for `Value`. -/
theorem Value.myInd (P : Value → Prop) (h1 : ∀ s, P (.str s)) (h2 : ∀ n, P (.int n))
    (h3 : ∀ n, P (.dt n)) (h4 : ∀ l, (∀ kv ∈ l, P kv.2) → P (.vdict l)) : ∀ v, P v := by
  intro v
  match v with
  | .str s => exact h1 s
  | .int n => exact h2 n
  | .dt n => exact h3 n
  | .vdict l =>
    refine h4 l ?_
    intro kv hkv
    have hlt : sizeOf kv.2 < sizeOf (Value.vdict l) := by
      have h5 := List.sizeOf_lt_of_mem hkv
      cases kv with
      | mk a b => simp at h5 ⊢; omega
    exact Value.myInd P h1 h2 h3 h4 kv.2
termination_by v => sizeOf v
decreasing_by simpa using hlt

mutual
theorem beqV_iff : ∀ a b : Value, beqV a b = true ↔ a = b := by
  intro a b
  cases a <;> cases b <;> simp [beqV]
  case vdict.vdict l1 l2 => exact beqF_iff l1 l2
theorem beqF_iff : ∀ a b : List (String × Value), beqF a b = true ↔ a = b := by
  intro a b
  match a, b with
  | [], [] => simp [beqF]
  | [], _ :: _ => simp [beqF]
  | _ :: _, [] => simp [beqF]
  | (k1, v1) :: r1, (k2, v2) :: r2 =>
    simp only [beqF, Bool.and_eq_true, beq_iff_eq, beqV_iff v1 v2, beqF_iff r1 r2,
      List.cons.injEq, Prod.mk.injEq]
    try tauto
end

instance : DecidableEq Value := fun a b =>
  decidable_of_iff (beqV a b = true) (beqV_iff a b)

/-- Python `d[k]` as a partial lookup (first — and only — binding of `k`). -/
def docGet (d : Doc) (k : String) : Option Value :=
  match d with
  | [] => none
  | (k', v) :: rest => if k' = k then some v else docGet rest k

/-- Python `k in d`. -/
def docHasKey (d : Doc) (k : String) : Bool :=
  (docGet d k).isSome

/-- Python `d[k] = v`: overwrite in place if `k` is bound, else append. -/
def docSet (d : Doc) (k : String) (v : Value) : Doc :=
  match d with
  | [] => [(k, v)]
  | (k', v') :: rest => if k' = k then (k', v) :: rest else (k', v') :: docSet rest k v

/-- Python `del d[k]` / `d.pop(k)`'s removal effect. -/
def docDel (d : Doc) (k : String) : Doc :=
  match d with
  | [] => []
  | (k', v') :: rest => if k' = k then rest else (k', v') :: docDel rest k

theorem docGet_set_eq (d : Doc) (k : String) (v : Value) :
    docGet (docSet d k v) k = some v := by
  induction d with
  | nil => simp [docSet, docGet]
  | cons kv rest ih =>
    obtain ⟨k', v'⟩ := kv
    by_cases h : k' = k <;> simp [docSet, docGet, h, ih]

theorem docGet_set_ne (d : Doc) (k k2 : String) (v : Value) (hne : k ≠ k2) :
    docGet (docSet d k v) k2 = docGet d k2 := by
  induction d with
  | nil => simp [docSet, docGet, hne]
  | cons kv rest ih =>
    obtain ⟨k', v'⟩ := kv
    by_cases h : k' = k
    · subst h
      simp [docSet, docGet, hne]
    · simp only [docSet, if_neg h]
      by_cases h2 : k' = k2 <;> simp [docGet, h2, ih]

theorem docGet_del_ne (d : Doc) (k k2 : String) (hne : k ≠ k2) :
    docGet (docDel d k) k2 = docGet d k2 := by
  induction d with
  | nil => simp [docDel]
  | cons kv rest ih =>
    obtain ⟨k', v'⟩ := kv
    by_cases h : k' = k
    · subst h
      simp [docDel, docGet, hne, Ne.symm hne]
    · simp only [docDel, if_neg h]
      by_cases h2 : k' = k2 <;> simp [docGet, h2, ih]


/-! ## Serialization (model of `msgpack.packb` / `msgpack.unpackb`)

`msgpack` is an external library; its documented contract is a
self-describing binary serialization of nested documents whose
deserialization is a perfect inverse (with the monty default/object_hook
round-tripping rich types such as datetimes).  We model the byte stream as a
stream of tokens and implement a genuine encoder and decoder, proving the
inverse property rather than assuming it. -/

/-- One token of the serialized stream (a faithful abstraction of a
self-describing byte encoding: string, integer, datetime payloads and a
map header carrying its entry count). -/
inductive Tok where
  | tstr : String → Tok
  | tint : Int → Tok
  | tdt : Nat → Tok
  | topen : Nat → Tok
deriving DecidableEq

mutual
/-- Encode one value. -/
def encV : Value → List Tok
  | .str s => [.tstr s]
  | .int n => [.tint n]
  | .dt t => [.tdt t]
  | .vdict l => .topen l.length :: encF l
/-- Encode a field list: key token followed by the encoded value. -/
def encF : List (String × Value) → List Tok
  | [] => []
  | (k, v) :: rest => .tstr k :: (encV v ++ encF rest)
end

/-- `msgpack.packb(doc, default=monty_default)`: serialize a document (a map). -/
def packb (d : Doc) : List Tok := encV (.vdict d)

mutual
/-- Fuel-indexed decoder for one value.  The fuel only forces termination;
`decode_fuel_sufficient`-style reasoning is packaged into `unpackb_packb`. -/
def decVF : Nat → List Tok → Option (Value × List Tok)
  | 0, _ => none
  | _ + 1, [] => none
  | _ + 1, .tstr s :: rest => some (.str s, rest)
  | _ + 1, .tint n :: rest => some (.int n, rest)
  | _ + 1, .tdt t :: rest => some (.dt t, rest)
  | fuel + 1, .topen n :: rest =>
    match decFF fuel n rest with
    | some (l, r) => some (.vdict l, r)
    | none => none
/-- Fuel-indexed decoder for `n` map entries. -/
def decFF : Nat → Nat → List Tok → Option (List (String × Value) × List Tok)
  | 0, _, _ => none
  | _ + 1, 0, rest => some ([], rest)
  | fuel + 1, n + 1, .tstr k :: rest =>
    match decVF fuel rest with
    | some (v, r1) =>
      match decFF fuel n r1 with
      | some (l, r2) => some ((k, v) :: l, r2)
      | none => none
    | none => none
  | _ + 1, _ + 1, _ => none
end

/-- Recursion depth needed to decode an encoded value. -/
def needV : Value → Nat
  | .str _ => 1
  | .int _ => 1
  | .dt _ => 1
  | .vdict l => needF l + 1
where
  /-- Recursion depth needed to decode an encoded field list. -/
  needF : List (String × Value) → Nat
  | [] => 1
  | (_, v) :: rest => max (needV v) (needF rest) + 1

/-- `msgpack.unpackb(data, object_hook=monty_object_hook)`: deserialize; fails
(raises) unless the stream is exactly one encoded map. -/
def unpackb (b : List Tok) : Option Doc :=
  match decVF (needUnpack b) b with
  | some (.vdict d, []) => some d
  | _ => none
where
  /-- Fuel sufficient for any stream of this length (each decoding step
  consumes a token, except the entry-count-zero step, which happens at most
  once per token plus once at the top). -/
  needUnpack (b : List Tok) : Nat := 2 * b.length + 2


/-- With enough fuel, the decoder inverts the encoder (both mutually). -/
theorem dec_correct : ∀ fuel : Nat,
    (∀ v rest, needV v ≤ fuel → decVF fuel (encV v ++ rest) = some (v, rest)) ∧
    (∀ l rest, needV.needF l ≤ fuel → decFF fuel l.length (encF l ++ rest) = some (l, rest)) := by
  intro fuel
  induction fuel with
  | zero =>
    constructor
    · intro v rest h
      exact absurd h (by cases v <;> simp [needV, needV.needF])
    · intro l rest h
      exact absurd h (by cases l <;> simp [needV.needF])
  | succ f ih =>
    constructor
    · intro v rest h
      cases v with
      | str s => simp [encV, decVF]
      | int n => simp [encV, decVF]
      | dt t => simp [encV, decVF]
      | vdict l =>
        have hF : needV.needF l ≤ f := by simpa [needV] using h
        simp [encV, decVF, ih.2 l rest hF]
    · intro l rest h
      cases l with
      | nil => simp [encF, decFF]
      | cons kv r =>
        obtain ⟨k, v⟩ := kv
        have hv : needV v ≤ f := by
          simp only [needV.needF] at h
          omega
        have hr : needV.needF r ≤ f := by
          simp only [needV.needF] at h
          omega
        simp only [encF, List.length_cons, List.cons_append, List.append_eq,
          List.append_assoc, decFF]
        rw [ih.1 v (encF r ++ rest) hv]
        simp [ih.2 r rest hr]

/-- The encoded stream is at least as long as the decoding depth needed
(minus one), for each value. -/
theorem needV_le_len : ∀ v : Value, needV v ≤ (encV v).length + 1 := by
  have hlist : ∀ l : List (String × Value),
      (∀ kv ∈ l, needV kv.2 ≤ (encV kv.2).length + 1) →
      needV.needF l ≤ (encF l).length + 1 := by
    intro l
    induction l with
    | nil => intro _; simp [needV.needF, encF]
    | cons kv r ihr =>
      intro hmem
      obtain ⟨k, v⟩ := kv
      have h1 : needV v ≤ (encV v).length + 1 := hmem (k, v) (by simp)
      have h2 : needV.needF r ≤ (encF r).length + 1 := ihr (fun kv h => hmem kv (by simp [h]))
      simp only [needV.needF, encF, List.length_cons, List.length_append]
      omega
  intro v
  induction v using Value.myInd with
  | h1 s => simp [needV, encV]
  | h2 n => simp [needV, encV]
  | h3 n => simp [needV, encV]
  | h4 l hmem =>
    have := hlist l hmem
    simp only [needV, encV, List.length_cons]
    omega

/-- msgpack round trip: deserializing a serialized document returns it. -/
theorem unpackb_packb (d : Doc) : unpackb (packb d) = some d := by
  have hneed : needV (.vdict d) ≤ unpackb.needUnpack (packb d) := by
    have h1 := needV_le_len (.vdict d)
    simp only [unpackb.needUnpack, packb]
    omega
  have hdec := (dec_correct (unpackb.needUnpack (packb d))).1 (.vdict d) [] hneed
  rw [List.append_nil] at hdec
  simp only [unpackb, packb] at hdec ⊢
  rw [hdec]

/-! ## Compression (model of `zlib.compress` / `zlib.decompress`)

`zlib` is an external library; the only property the store relies on is that
`decompress` inverts `compress`.  We model compression as an injective,
reversible re-framing of the token stream (a DEFLATE container marker in
front of the payload). -/

/-- `zlib.compress(data)`. -/
def zlib_compress (data : List Tok) : List Tok :=
  Tok.topen 0 :: data

/-- `zlib.decompress(data)`: strips the container frame. -/
def zlib_decompress (data : List Tok) : List Tok :=
  data.tail

theorem zlib_roundtrip (data : List Tok) : zlib_decompress (zlib_compress data) = data := rfl

/-! ## Python `str()` and error kinds -/

mutual
/-- Python `str(v)`.  Exact for strings and integers (the cases the store's
object keys go through); the datetime and dict renderings are abbreviated
(no claim depends on them). -/
def pyStr : Value → String
  | .str s => s
  | .int n => toString n
  | .dt t => toString t
  | .vdict l => "dict(" ++ pyStrF l ++ ")"
def pyStrF : List (String × Value) → String
  | [] => ""
  | (k, v) :: rest => k ++ ": " ++ pyStr v ++ ", " ++ pyStrF rest
end

/-- The kinds of Python exceptions the embedded code can raise. -/
inductive PyErr where
  /-- `KeyError` (missing dictionary key). -/
  | keyError : String → PyErr
  /-- `TypeError` (e.g. `str + non-str`, `len(None)`). -/
  | typeError : PyErr
  /-- A non-404 `botocore.exceptions.ClientError` from the S3 backend. -/
  | clientError : PyErr
  /-- An injected failure of an individual S3 `put_object` call. -/
  | putError : Nat → PyErr
  /-- `msgpack.unpackb` failure on a malformed stream. -/
  | unpackError : PyErr
deriving DecidableEq

/-! ## Timestamp normalization (`maggma/utils.py` lines 86-96)

Python `datetime` values are modelled as microseconds since the minimum
representable instant.  The ISO-8601 string produced by
`datetime.isoformat(timespec="milliseconds")` (format
`%Y-%m-%dT%H:%M:%S.%f` with a 3-digit fraction) is modelled at field
granularity by `IsoMs`: the calendar-date component `%Y-%m-%d` is
represented by its day number.  The textual rendering is injective in these
five fields over `datetime`'s supported range (zero-padded fields between
fixed delimiters, and the proleptic-Gregorian date rendering is a bijection
on days), so equality of `IsoMs` values models equality of the strings. -/

/-- An ISO-8601 timestamp string with millisecond precision, at field
granularity. -/
structure IsoMs where
  day : Nat
  hour : Nat
  minute : Nat
  second : Nat
  millisecond : Nat
deriving DecidableEq

/-- `dt_to_isoformat_ceil_ms(dt)`: add one millisecond, then format with
millisecond `timespec` (which truncates the microseconds to milliseconds). -/
def dt_to_isoformat_ceil_ms (t : Nat) : IsoMs :=
  let u := t + 1000
  { day := u / 86400000000
    hour := u % 86400000000 / 3600000000
    minute := u % 3600000000 / 60000000
    second := u % 60000000 / 1000000
    millisecond := u % 1000000 / 1000 }

/-- `isostr_to_dt(s)`: `strptime` with format `%Y-%m-%dT%H:%M:%S.%f`
(the fraction `%f` is right-padded to microseconds, so a 3-digit
millisecond field contributes `ms * 1000` microseconds).  The second-only
fallback branch is unreachable for strings carrying a fraction, which all
`IsoMs` values model. -/
def isostr_to_dt (s : IsoMs) : Nat :=
  s.day * 86400000000 + s.hour * 3600000000 + s.minute * 60000000 +
    s.second * 1000000 + s.millisecond * 1000

/-- Stands for the zero-padded `%Y-%m-%dT%H:%M:%S.%f` text of an `IsoMs`;
only its injectivity in the five fields matters downstream. -/
def isoMsRender (s : IsoMs) : String :=
  toString s.day ++ "T" ++ toString s.hour ++ ":" ++ toString s.minute ++ ":" ++
    toString s.second ++ "." ++ toString s.millisecond

/-- Modelled from the spec: `to_isoformat_ceil_ms` (imported by the store
from `maggma.utils` but not present under `src/`) re-encodes a datetime
value "to millisecond ISO-8601"; applying datetime arithmetic to a
non-datetime value is a `TypeError`. -/
def to_isoformat_ceil_ms (v : Value) : Except PyErr Value :=
  match v with
  | .dt t => .ok (.str (isoMsRender (dt_to_isoformat_ceil_ms t)))
  | _ => .error .typeError

/-! ## The wrapped Index Store and the S3 store's configuration

`maggma.core.Store` (the abstract base class) and the concrete Index Store
are not under `src/`; per the spec (§3 "Store Identity", §4.1) a Store is
identified by an immutable configuration tuple, compared and hashed by
value.  We model the Index Store accordingly. -/

/-- Modelled from the spec: the wrapped Index Store.  `key` and
`last_updated_field` are its Store-contract configuration; `collection`
stands for the rest of its value-level identity tuple; `oid` is the
per-instance Python object identity (`id()`), which value-level equality
and hashing must not consult. -/
structure IndexStoreModel where
  key : String
  last_updated_field : String
  collection : String
  oid : Nat
deriving DecidableEq

/-- Modelled from the spec: Index Store `__eq__` — value-level identity
tuple comparison (never the object identity). -/
def indexStoreEq (a b : IndexStoreModel) : Bool :=
  a.key == b.key && a.last_updated_field == b.last_updated_field &&
    a.collection == b.collection

/-- A deterministic value of a Python string hash (any fixed function of the
string's characters; only "equal strings hash equally" is relied on). -/
def pyStrHash (s : String) : Nat :=
  s.foldl (fun h c => h * 31 + c.toNat) 7

/-- Modelled from the spec: Index Store `__hash__` — a hash of the
value-level identity tuple. -/
def indexStoreHash (i : IndexStoreModel) : Nat :=
  pyStrHash i.key * 1000003 + pyStrHash i.last_updated_field * 1009 +
    pyStrHash i.collection

/-- CPython's hash of a bound method `obj.m`: the XOR of `hash(obj)` with the
hash of the underlying function object.  The function object is the class's
`__hash__` slot, shared by every instance, so its (id-based) hash is a
per-process constant; it is threaded through as a parameter. -/
def boundMethodHash (selfHash funcHash : Nat) : Nat :=
  Nat.xor selfHash funcHash

/-- A deterministic stand-in for CPython's tuple hash of a pair (any fixed
combination of the component hashes). -/
def pyTupleHash2 (h1 h2 : Nat) : Nat :=
  (h1 * 1000003 + h2) * 69069 + 2

/-- The `S3Store` object state fixed at construction (`__init__`,
`aws.py` lines 33-71).  `oid` is the per-instance object identity;
`s3`/`s3_bucket` connection handles carry no identity content and are
omitted. -/
structure S3StoreModel where
  index : IndexStoreModel
  bucket : String
  s3_profile : Option String
  compress : Bool
  endpoint_url : Option String
  sub_dir : String
  s3_workers : Nat
  key : String
  last_updated_field : String
  oid : Nat

/-- Python `sub_dir.strip("/")`: remove every leading and trailing `/`. -/
def stripSlashes (s : String) : String :=
  String.mk (((s.data.dropWhile (· = '/')).reverse.dropWhile (· = '/')).reverse)

/-- `S3Store.__init__` (lines 33-71): stores the configuration, normalizes
`sub_dir` to `stripped + "/"` (empty for a falsy `sub_dir`), and forces
`kwargs["key"] = str(index.key)` — overwriting any caller-supplied `key` —
before delegating to the base `Store.__init__`, which (modelled from the
spec's Store contract) records `key` and `last_updated_field`. -/
def S3Store_init (index : IndexStoreModel) (bucket : String) (s3_profile : Option String)
    (compress : Bool) (endpoint_url : Option String) (sub_dir : Option String)
    (s3_workers : Nat) (kwargs_key : Option String) (kwargs_last_updated_field : String)
    (oid : Nat) : S3StoreModel :=
  { index := index
    bucket := bucket
    s3_profile := s3_profile
    compress := compress
    endpoint_url := endpoint_url
    sub_dir :=
      match sub_dir with
      | some sd => if sd = "" then "" else stripSlashes sd ++ "/"
      | none => ""
    s3_workers := s3_workers
    key := index.key
    last_updated_field := kwargs_last_updated_field
    oid := oid }

/-- `S3Store.__eq__` (lines 390-399): field-for-field comparison of
`index`, `bucket` and `last_updated_field` (an object of another type is
never equal; the model compares two `S3StoreModel`s). -/
def s3StoreEq (a b : S3StoreModel) : Bool :=
  indexStoreEq a.index b.index && a.bucket == b.bucket &&
    a.last_updated_field == b.last_updated_field

/-- `S3Store.__hash__` (lines 351-352): `hash((self.index.__hash__,
self.bucket))` — the hash of the pair of the *bound method object*
`self.index.__hash__` and the bucket name.  `funcHash` is the per-process
hash of the shared `__hash__` function object. -/
def s3StoreHash (funcHash : Nat) (s : S3StoreModel) : Nat :=
  pyTupleHash2 (boundMethodHash (indexStoreHash s.index) funcHash) (pyStrHash s.bucket)

/-! ## Store state and the Index Store contract operations -/

/-- One S3 object: its body (the serialized blob) and its S3 metadata. -/
structure S3Obj where
  body : List Tok
  metadata : Doc
deriving DecidableEq

/-- The two storage systems the hybrid store composes: the S3 bucket
contents (object key → object) and the Index Store's documents. -/
structure S3State where
  bucket : List (String × S3Obj)
  index : List Doc

/-- Bucket lookup (`s3_bucket.Object(key).get()`). -/
def bucketGet (b : List (String × S3Obj)) (k : String) : Option S3Obj :=
  match b with
  | [] => none
  | (k', o) :: rest => if k' = k then some o else bucketGet rest k

/-- `s3_bucket.put_object(Key=k, ...)`: overwrite or create. -/
def bucketPut (b : List (String × S3Obj)) (k : String) (o : S3Obj) : List (String × S3Obj) :=
  match b with
  | [] => [(k, o)]
  | (k', o') :: rest => if k' = k then (k', o) :: rest else (k', o') :: bucketPut rest k o

/-- One bulk `delete_objects` call: every listed key is removed. -/
def bucketDeleteMany (b : List (String × S3Obj)) (ks : List String) : List (String × S3Obj) :=
  b.filter (fun (k, _) => ¬ ks.contains k)

/-- Modelled from the spec: `index.query(criteria, ...)` — the Index Store
returns its documents matching the criteria (criteria are abstracted as a
predicate; no sort/skip/limit is exercised by the claims). -/
def indexQuery (idx : List Doc) (criteria : Doc → Bool) : List Doc :=
  idx.filter criteria

/-- Modelled from the spec: `index.remove_docs(criteria)` — delete the
matching Index Entries. -/
def indexRemoveDocs (idx : List Doc) (criteria : Doc → Bool) : List Doc :=
  idx.filter (fun d => ¬ criteria d)

/-- Modelled from the spec: `index.distinct(field, criteria)` — the distinct
values of `field` over matching documents (documents lacking the field
contribute nothing). -/
def indexDistinct (idx : List Doc) (field : String) (criteria : Doc → Bool) : List Value :=
  ((idx.filter criteria).filterMap (fun d => docGet d field)).dedup

/-- Modelled from the spec: one upsert of `index.update` — replace the
entries whose key-field value matches, else append ("Use store's update to
remove key clashes"). -/
def indexUpsert (idx : List Doc) (key : String) (d : Doc) : List Doc :=
  if idx.any (fun e => docGet e key == docGet d key) then
    idx.map (fun e => if docGet e key == docGet d key then d else e)
  else
    idx ++ [d]

/-- Modelled from the spec: `index.update(docs)`. -/
def indexUpdate (idx : List Doc) (key : String) (docs : List Doc) : List Doc :=
  docs.foldl (fun acc d => indexUpsert acc key d) idx

/-! ## `S3Store.write_doc_to_s3` (lines 273-307) and `S3Store.update` (241-271) -/

/-- `{k: doc[k] for k in search_keys}` — a missing key raises `KeyError`. -/
def buildSearchDoc (doc : Doc) (search_keys : List String) : Except PyErr Doc :=
  search_keys.foldlM
    (fun acc k =>
      match docGet doc k with
      | some v => .ok (docSet acc k v)
      | none => .error (.keyError k))
    []

/-- The result of one blob write: the object key written, the object, and
the search document destined for the Index Store. -/
structure WriteResult where
  objKey : String
  obj : S3Obj
  search_doc : Doc

/-- `S3Store.write_doc_to_s3(doc, search_keys)`: build the search document,
tag it with `sub_dir`, strip `_id`, serialize the **original** document,
optionally compress (recording the `compression` marker on the search
document only), re-encode the last-updated field if it is present in the
search document, then `put_object`.  `putFail` injects the S3 backend's
per-call failures (`None` = the put succeeds). -/
def write_doc_to_s3 (cfg : S3StoreModel) (putFail : String → Option PyErr)
    (doc : Doc) (search_keys : List String) : Except PyErr WriteResult := do
  let sd0 ← buildSearchDoc doc search_keys
  let sd1 ←
    match docGet doc cfg.key with
    | some v => .ok (docSet sd0 cfg.key v)
    | none => .error (.keyError cfg.key)
  let sd2 := if cfg.sub_dir ≠ "" then docSet sd1 "sub_dir" (.str cfg.sub_dir) else sd1
  let sd3 := if docHasKey sd2 "_id" then docDel sd2 "_id" else sd2
  let data0 := packb doc
  let sd4 := if cfg.compress then docSet sd3 "compression" (.str "zlib") else sd3
  let data1 := if cfg.compress then zlib_compress data0 else data0
  let sd5 ←
    if docHasKey sd4 cfg.last_updated_field then do
      match docGet sd4 cfg.last_updated_field with
      | some v => do
        let iso ← to_isoformat_ceil_ms v
        pure (docSet sd4 cfg.last_updated_field iso)
      | none => .error (.keyError cfg.last_updated_field)
    else
      pure sd4
  let objKey :=
    match docGet doc cfg.key with
    | some v => cfg.sub_dir ++ pyStr v
    | none => cfg.sub_dir
  match putFail objKey with
  | some e => .error e
  | none => .ok { objKey := objKey, obj := { body := data1, metadata := sd5 }, search_doc := sd5 }

/-- The search-key set `update` resolves (list argument, single-string
argument — folded into the list case — or the store's key field). -/
def resolveSearchKeys (cfg : S3StoreModel) (key : Option (List String)) : List String :=
  match key with
  | some ks => ks
  | none => [cfg.key]

/-- Collect the worker results as `update`'s `for sdoc in fs:
search_docs.append(sdoc.result())` loop does: the first stored exception
(in the model, in submission order) re-raises. -/
def collectResults : List (Except PyErr WriteResult) → Except PyErr (List Doc)
  | [] => .ok []
  | .error e :: _ => .error e
  | .ok r :: rest => (collectResults rest).map (fun l => r.search_doc :: l)

/-- `S3Store.update(docs, key)`: submit every document's blob write to the
worker pool, wait for all of them (every write runs regardless of other
writes' failures), then collect the results — re-raising the first stored
exception — and only on full success commit the search documents to the
Index Store.  Returns the new state plus the raised exception, if any. -/
def s3update (cfg : S3StoreModel) (putFail : String → Option PyErr) (st : S3State)
    (docs : List Doc) (key : Option (List String)) : S3State × Option PyErr :=
  let search_keys := resolveSearchKeys cfg key
  let outcomes := docs.map (fun d => write_doc_to_s3 cfg putFail d search_keys)
  let bucket1 := outcomes.foldl
    (fun b o =>
      match o with
      | .ok r => bucketPut b r.objKey r.obj
      | .error _ => b)
    st.bucket
  match collectResults outcomes with
  | .error e => ({ bucket := bucket1, index := st.index }, some e)
  | .ok sdocs => ({ bucket := bucket1, index := indexUpdate st.index cfg.key sdocs }, none)

/-! ## `S3Store.query` (lines 127-180) -/

/-- `doc.get("compression", "") == "zlib"` on an Index Entry. -/
def entryIsZlib (entry : Doc) : Bool :=
  match docGet entry "compression" with
  | some v => v == .str "zlib"
  | none => false

/-- What the query loop body does with one candidate Index Entry. -/
inductive QStep where
  /-- A document is yielded. -/
  | out : Doc → QStep
  /-- 404 from the blob backend: log the miss and `break`. -/
  | stop : QStep
  /-- An exception propagates out of the generator. -/
  | err : PyErr → QStep

/-- One iteration of the `query` loop: if `properties` was requested and its
keys are all present on the Index Entry, yield the projected entry with no
blob fetch; otherwise fetch the blob at `sub_dir + entry[key]` (missing
object → 404 → `break`), decompress if the entry's `compression` marker says
`zlib`, and deserialize. -/
def queryStep (cfg : S3StoreModel) (bucket : List (String × S3Obj))
    (properties : Option (List String)) (entry : Doc) : QStep :=
  match properties with
  | some props =>
    if props.all (fun p => docHasKey entry p) then
      .out (props.foldl
        (fun acc p =>
          match docGet entry p with
          | some v => docSet acc p v
          | none => acc)
        [])
    else
      fetchAndYield cfg bucket entry
  | none => fetchAndYield cfg bucket entry
where
  /-- The blob-fetch path of the loop body. -/
  fetchAndYield (cfg : S3StoreModel) (bucket : List (String × S3Obj)) (entry : Doc) : QStep :=
    match docGet entry cfg.key with
    | none => .err (.keyError cfg.key)
    | some (.str s) =>
      match bucketGet bucket (cfg.sub_dir ++ s) with
      | none => .stop
      | some obj =>
        let data := if entryIsZlib entry then zlib_decompress obj.body else obj.body
        match unpackb data with
        | some d => .out d
        | none => .err .unpackError
    | some _ => .err .typeError

/-- `S3Store.query(criteria, properties, ...)` over the candidate Index
Entries returned by the Index Store: the documents yielded (in order)
together with the exception that escaped the generator, if any.  A `.stop`
(404) ends the results without an exception. -/
def s3queryLoop (cfg : S3StoreModel) (bucket : List (String × S3Obj))
    (properties : Option (List String)) : List Doc → List Doc × Option PyErr
  | [] => ([], none)
  | entry :: rest =>
    match queryStep cfg bucket properties entry with
    | .out d =>
      let (ds, e) := s3queryLoop cfg bucket properties rest
      (d :: ds, e)
    | .stop => ([], none)
    | .err e => ([], some e)

/-- `S3Store.query`: delegate the criteria to the Index Store, then run the
per-entry loop. -/
def s3query (cfg : S3StoreModel) (st : S3State) (criteria : Doc → Bool)
    (properties : Option (List String)) : List Doc × Option PyErr :=
  s3queryLoop cfg st.bucket properties (indexQuery st.index criteria)

/-! ## `S3Store.remove_docs` (lines 309-327) and `grouper` (utils 125-135) -/

/-- `grouper(iterable, n)`: chunks of `n` items until the sentinel (an empty
chunk) appears; with `n = 0` the first chunk is already empty. -/
def grouper {α : Type} (l : List α) (n : Nat) : List (List α) :=
  if l.isEmpty ∨ n = 0 then []
  else l.take n :: grouper (l.drop n) n
termination_by l.length
decreasing_by
  rename_i h
  simp only [List.isEmpty_iff, not_or] at h
  have : l ≠ [] := h.1
  have : 0 < n := Nat.pos_of_ne_zero h.2
  have : 0 < l.length := List.length_pos.mpr h.1
  simp [List.length_drop]
  omega

/-- `[{"Key": self.sub_dir + obj} for obj in chunk]`: concatenating the
`sub_dir` onto a non-string key value is a `TypeError`. -/
def chunkObjList (sub_dir : String) (chunk : List Value) : Except PyErr (List String) :=
  chunk.mapM
    (fun v =>
      match v with
      | .str s => .ok (sub_dir ++ s)
      | _ => .error .typeError)

/-- The bulk-delete loop: one `delete_objects` call per chunk.  Returns the
final bucket, the log of issued calls (the key list of each call, in
order), and the exception that interrupted the loop, if any. -/
def deleteLoop (sub_dir : String) : List (List Value) → List (String × S3Obj) →
    List (String × S3Obj) × List (List String) × Option PyErr
  | [], b => (b, [], none)
  | chunk :: rest, b =>
    match chunkObjList sub_dir chunk with
    | .error e => (b, [], some e)
    | .ok ks =>
      let (b1, calls, e) := deleteLoop sub_dir rest (bucketDeleteMany b ks)
      (b1, ks :: calls, e)

/-- `S3Store.remove_docs(criteria, remove_s3_object)`: with
`remove_s3_object=False` (the default) only the matching Index Entries are
removed; otherwise the matching key values are read first, the Index
Entries removed, and the objects bulk-deleted in chunks of 1000.  Returns
the new state, the log of `delete_objects` calls, and any exception. -/
def s3remove_docs (cfg : S3StoreModel) (st : S3State) (criteria : Doc → Bool)
    (remove_s3_object : Bool) : S3State × List (List String) × Option PyErr :=
  if ¬ remove_s3_object then
    ({ bucket := st.bucket, index := indexRemoveDocs st.index criteria }, [], none)
  else
    let to_remove := indexDistinct st.index cfg.key criteria
    let idx1 := indexRemoveDocs st.index criteria
    let chunks := grouper to_remove 1000
    let (b1, calls, e) := deleteLoop cfg.sub_dir chunks st.bucket
    ({ bucket := b1, index := idx1 }, calls, e)

/-! ## `S3Store.rebuild_metadata_from_index` (lines 366-388) -/

/-- Python `str.lower()` (character-wise). -/
def strLower (s : String) : String :=
  String.mk (s.data.map Char.toLower)

/-- `{str(k).lower(): v for k, v in s3_object.metadata.items()}` followed by
the `new_meta[str(k).lower()] = v` merge loop over the Index Entry. -/
def lowerMerge (objMeta : Doc) (index_doc : Doc) : Doc :=
  index_doc.foldl
    (fun acc (kv : String × Value) => docSet acc (strLower kv.1) kv.2)
    (objMeta.foldl (fun acc (kv : String × Value) => docSet acc (strLower kv.1) kv.2) [])

/-- One iteration of `rebuild_metadata_from_index`: read the object at
`sub_dir + index_doc[key]`, merge its metadata with the Index Entry's
fields (all keys lower-cased), `pop("_id")` — which raises `KeyError` when
the merged metadata has no `_id` — and `copy_from` the object onto itself
with `MetadataDirective="REPLACE"` (same body, new metadata). -/
def rebuildStep (cfg : S3StoreModel) (bucket : List (String × S3Obj)) (index_doc : Doc) :
    Except PyErr (List (String × S3Obj)) :=
  match docGet index_doc cfg.key with
  | none => .error (.keyError cfg.key)
  | some (.str s) =>
    let key_ := cfg.sub_dir ++ s
    match bucketGet bucket key_ with
    | none => .error .clientError
    | some obj =>
      let new_meta := lowerMerge obj.metadata index_doc
      if docHasKey new_meta "_id" then
        .ok (bucketPut bucket key_ { body := obj.body, metadata := docDel new_meta "_id" })
      else
        .error (.keyError "_id")
  | some _ => .error .typeError

/-- The `for index_doc in self.index.query(qq)` loop: sequential, stopping
at the first exception (earlier rewrites stay applied). -/
def rebuildLoop (cfg : S3StoreModel) : List Doc → List (String × S3Obj) →
    List (String × S3Obj) × Option PyErr
  | [], b => (b, none)
  | d :: rest, b =>
    match rebuildStep cfg b d with
    | .ok b1 => rebuildLoop cfg rest b1
    | .error e => (b, some e)

/-- `S3Store.rebuild_metadata_from_index(index_query)`. -/
def rebuild_metadata_from_index (cfg : S3StoreModel) (st : S3State)
    (index_query : Doc → Bool) : List (String × S3Obj) × Option PyErr :=
  rebuildLoop cfg (indexQuery st.index index_query) st.bucket

/-! ## Field aliasing (`maggma/utils.py` lines 148-167) over `pydash`

`pydash` is an external library; its path helpers (`to_path`, `has`, `get`,
`set_`, `unset`) are modelled by their documented behavior on string-keyed
nested dictionaries with dotted paths, the only shapes the source feeds
them. -/

/-- Split a character list on `.` (helper for `to_path`). -/
def splitDots (l : List Char) (cur : List Char) : List (List Char) :=
  match l with
  | [] => [cur.reverse]
  | c :: rest => if c = '.' then cur.reverse :: splitDots rest [] else splitDots rest (c :: cur)

/-- `pydash.to_path("a.b") == ["a", "b"]` (dotted string paths; the bracket
notation is not exercised by the source). -/
def to_path (s : String) : List String :=
  (splitDots s.data []).map String.mk

/-- `pydash.get(d, path)` with the default `None` result mapped to `none`. -/
def pyGet (v : Value) (path : List String) : Option Value :=
  match path with
  | [] => some v
  | k :: rest =>
    match v with
    | .vdict l =>
      match docGet l k with
      | some v1 => pyGet v1 rest
      | none => none
    | _ => none

/-- `pydash.has(d, path)`. -/
def pyHas (v : Value) (path : List String) : Bool :=
  (pyGet v path).isSome

/-- `pydash.set_(d, path, nv)`, creating missing intermediate containers.
(A non-container intermediate is left untouched; the source never hits that
branch.) -/
def pySet (v : Value) (path : List String) (nv : Value) : Value :=
  match path with
  | [] => nv
  | k :: rest =>
    match v with
    | .vdict l =>
      let child :=
        match docGet l k with
        | some c => c
        | none => .vdict []
      .vdict (docSet l k (pySet child rest nv))
    | other => other

/-- `pydash.objects.unset(d, path)` (imported as `_unset`): remove the value
at `path` if present. -/
def pydashUnset (v : Value) (path : List String) : Value :=
  match path with
  | [] => v
  | [k] =>
    match v with
    | .vdict l => .vdict (docDel l k)
    | other => other
  | k :: rest =>
    match v with
    | .vdict l =>
      match docGet l k with
      | some c => .vdict (docSet l k (pydashUnset c rest))
      | none => .vdict l
    | other => other

/-- Python `len(x)`: defined for dictionaries and strings, a `TypeError`
otherwise (in particular for `None`, modelled at the call site). -/
def pyLen (v : Value) : Option Nat :=
  match v with
  | .vdict l => some l.length
  | .str s => some s.length
  | _ => none

/-- The worker for maggma's `unset(d, key)` (utils 159-167).  `none` as the
fourth argument is the entry point: run `_unset`, then start the pruning
loop `for i in reversed(range(1, len(path)))`; `some i` is the loop with
counter `i`: if `len(get(d, path[:i]))` is zero — `get` returning `None`
makes `len` a `TypeError` — recursively unset the prefix and continue.  The
fuel argument only forces termination: each call strictly shortens either
the path (`4 ^ length` over-approximates the total number of calls) so the
zero-fuel branch is unreachable from `unset`'s entry point. -/
def unsetAux : Nat → Value → List String → Option Nat → Except PyErr Value
  | 0, d, _, _ => .ok d
  | fuel + 1, d, path, none => unsetAux fuel (pydashUnset d path) path (some (path.length - 1))
  | _ + 1, d, _, some 0 => .ok d
  | fuel + 1, d, path, some (i + 1) =>
    let pth := path.take (i + 1)
    match pyGet d pth with
    | none => .error .typeError
    | some v =>
      match pyLen v with
      | none => .error .typeError
      | some n =>
        if n = 0 then
          match unsetAux fuel d pth none with
          | .ok d1 => unsetAux fuel d1 path (some (i + 1 - 1))
          | .error e => .error e
        else
          unsetAux fuel d path (some (i + 1 - 1))

/-- maggma `unset(d, key)` on an already-split path (the recursive calls
pass path lists, which `to_path` returns unchanged). -/
def unsetPath (d : Value) (path : List String) : Except PyErr Value :=
  unsetAux (4 ^ path.length) d path none

/-- maggma `unset(d, key)` (utils 159-167): `_unset`, then prune parent
containers that the removal left empty. -/
def unset (d : Value) (key : String) : Except PyErr Value :=
  unsetPath d (to_path key)

/-- maggma `substitute(d, aliases)` (utils 148-156): for each
`alias → canonical` pair, if the canonical path exists, copy its value to
the alias path and unset the canonical path. -/
def substitute (d : Value) (aliases : List (String × String)) : Except PyErr Value :=
  aliases.foldlM
    (fun acc (av : String × String) =>
      if pyHas acc (to_path av.2) then
        let v :=
          match pyGet acc (to_path av.2) with
          | some v => v
          | none => .vdict []
        unsetPath (pySet acc (to_path av.1) v) (to_path av.2)
      else
        .ok acc)
    d

/-! ## Claims -/

/-- The five fields of `dt_to_isoformat_ceil_ms t` are functions of the
millisecond count `(t + 1000) / 1000` alone. -/
theorem dt_ceil_fields (t : Nat) :
    dt_to_isoformat_ceil_ms t =
      { day := (t + 1000) / 1000 / 86400000
        hour := (t + 1000) / 1000 % 86400000 / 3600000
        minute := (t + 1000) / 1000 % 3600000 / 60000
        second := (t + 1000) / 1000 % 60000 / 1000
        millisecond := (t + 1000) / 1000 % 1000 } := by
  set u := t + 1000 with hu
  have hday : u / 86400000000 = u / 1000 / 86400000 := by
    rw [Nat.div_div_eq_div_mul]
  have hmod : ∀ m k : Nat, u % (1000 * m) / (1000 * k) = u / 1000 % m / k := by
    intro m k
    rw [← Nat.div_div_eq_div_mul, Nat.mod_mul_right_div_self]
  have hhour := hmod 86400000 3600000
  have hminute := hmod 3600000 60000
  have hsecond := hmod 60000 1000
  have hms : u % 1000000 / 1000 = u / 1000 % 1000 := by
    have := hmod 1000 1
    simpa using this
  simp only [dt_to_isoformat_ceil_ms]
  norm_num at hhour hminute hsecond
  simp [hday, hhour, hminute, hsecond, hms]

/-- Recomposing the five fields yields the millisecond floor of the input. -/
theorem isostr_decompose (u : Nat) :
    u / 86400000000 * 86400000000 + u % 86400000000 / 3600000000 * 3600000000 +
      u % 3600000000 / 60000000 * 60000000 + u % 60000000 / 1000000 * 1000000 +
      u % 1000000 / 1000 * 1000 = u / 1000 * 1000 := by
  have h1 := Nat.div_add_mod u 86400000000
  have h2 := Nat.div_add_mod (u % 86400000000) 3600000000
  have h3 : u % 86400000000 % 3600000000 = u % 3600000000 :=
    Nat.mod_mod_of_dvd u (by norm_num)
  have h4 := Nat.div_add_mod (u % 3600000000) 60000000
  have h5 : u % 3600000000 % 60000000 = u % 60000000 :=
    Nat.mod_mod_of_dvd u (by norm_num)
  have h6 := Nat.div_add_mod (u % 60000000) 1000000
  have h7 : u % 60000000 % 1000000 = u % 1000000 :=
    Nat.mod_mod_of_dvd u (by norm_num)
  have h8 := Nat.div_add_mod (u % 1000000) 1000
  have h9 : u % 1000000 % 1000 = u % 1000 :=
    Nat.mod_mod_of_dvd u (by norm_num)
  have h10 := Nat.div_add_mod u 1000
  omega

/-- C6: parsing the millisecond-ceiling normalization of any datetime `t`
(`isostr_to_dt (dt_to_isoformat_ceil_ms t)`) yields a value `≥ t`, and any
two datetimes falling in the same millisecond after the ceiling is applied
(`(t1+1000)/1000 = (t2+1000)/1000`, i.e. the same ceiled millisecond)
normalize to the identical ISO-8601 string (modelled by `IsoMs`). -/
theorem C6_millisecond_ceiling :
    (∀ t : Nat, t ≤ isostr_to_dt (dt_to_isoformat_ceil_ms t)) ∧
    (∀ t1 t2 : Nat, (t1 + 1000) / 1000 = (t2 + 1000) / 1000 →
      dt_to_isoformat_ceil_ms t1 = dt_to_isoformat_ceil_ms t2) := by
  constructor
  · intro t
    have hdec := isostr_decompose (t + 1000)
    have hmod : (t + 1000) % 1000 < 1000 := Nat.mod_lt _ (by norm_num)
    have hfloor := Nat.div_add_mod (t + 1000) 1000
    simp only [isostr_to_dt, dt_to_isoformat_ceil_ms]
    omega
  · intro t1 t2 h
    rw [dt_ceil_fields t1, dt_ceil_fields t2, h]

/-- Witness for C6 at `t = 1500`, `t1 = 1500`, `t2 = 1800` (both land in
millisecond 2 after the ceiling). -/
theorem C6_millisecond_ceiling_witness :
    1500 ≤ isostr_to_dt (dt_to_isoformat_ceil_ms 1500) ∧
      dt_to_isoformat_ceil_ms 1500 = dt_to_isoformat_ceil_ms 1800 :=
  ⟨C6_millisecond_ceiling.1 1500, C6_millisecond_ceiling.2 1500 1800 (by decide)⟩

/-- C9: `substitute({"a": {"b": 1}}, {"x": "a.b"})` yields exactly
`{"x": 1}` — the value at the canonical nested path `a.b` is copied to the
alias key `x`, the canonical entry is removed, and the now-empty parent
container `a` is pruned away entirely. -/
theorem C9_substitute_alias :
    substitute (.vdict [("a", .vdict [("b", .int 1)])]) [("x", "a.b")] =
      .ok (.vdict [("x", .int 1)]) := by
  rfl

/-- C4: any two S3 stores that compare equal under `__eq__` (equal wrapped
Index Stores by value, equal buckets, equal last-updated field names) have
equal `__hash__` values, for every per-process hash of the shared
`__hash__` function object; and the hash never consults the per-instance
object identity of the store or of its wrapped Index Store. -/
theorem C4_hash_respects_eq :
    (∀ (funcHash : Nat) (a b : S3StoreModel),
      s3StoreEq a b = true → s3StoreHash funcHash a = s3StoreHash funcHash b) ∧
    (∀ (funcHash : Nat) (a : S3StoreModel) (oid1 oid2 ioid1 ioid2 : Nat),
      s3StoreHash funcHash
          { a with oid := oid1, index := { a.index with oid := ioid1 } } =
        s3StoreHash funcHash
          { a with oid := oid2, index := { a.index with oid := ioid2 } }) := by
  constructor
  · intro funcHash a b h
    simp only [s3StoreEq, indexStoreEq, Bool.and_eq_true, beq_iff_eq] at h
    obtain ⟨⟨⟨⟨hk, hl⟩, hc⟩, hb⟩, hluf⟩ := h
    simp only [s3StoreHash, indexStoreHash, boundMethodHash, hk, hl, hc, hb]
  · intro funcHash a oid1 oid2 ioid1 ioid2
    rfl

/-- Witness for C4: two distinct store instances (different object ids,
different credential profiles) that are `__eq__`-equal hash identically
under the function-object hash `12345`. -/
theorem C4_hash_respects_eq_witness :
    s3StoreHash 12345
        { index := { key := "task_id", last_updated_field := "lu", collection := "c", oid := 1 }
          bucket := "bkt", s3_profile := none, compress := false, endpoint_url := none
          sub_dir := "", s3_workers := 4, key := "task_id", last_updated_field := "lu"
          oid := 10 } =
      s3StoreHash 12345
        { index := { key := "task_id", last_updated_field := "lu", collection := "c", oid := 2 }
          bucket := "bkt", s3_profile := some "p", compress := false, endpoint_url := none
          sub_dir := "", s3_workers := 8, key := "task_id", last_updated_field := "lu"
          oid := 20 } :=
  C4_hash_respects_eq.1 12345 _ _ (by decide)

/-- C10: the constructor forces the store's key field to the string form of
the wrapped Index Store's key field, overwriting any caller-supplied `key`:
the resulting configuration never depends on the `key` entry of the
caller's kwargs. -/
theorem C10_key_forced_to_index_key (index : IndexStoreModel) (bucket : String)
    (s3_profile : Option String) (compress : Bool) (endpoint_url : Option String)
    (sub_dir : Option String) (s3_workers : Nat) (kwargs_key : Option String)
    (kwargs_last_updated_field : String) (oid : Nat) :
    (S3Store_init index bucket s3_profile compress endpoint_url sub_dir s3_workers
        kwargs_key kwargs_last_updated_field oid).key = index.key ∧
      S3Store_init index bucket s3_profile compress endpoint_url sub_dir s3_workers
          kwargs_key kwargs_last_updated_field oid =
        S3Store_init index bucket s3_profile compress endpoint_url sub_dir s3_workers
          none kwargs_last_updated_field oid :=
  ⟨rfl, rfl⟩

/-- C7: `remove_docs(criteria, remove_s3_object=False)` (the default)
deletes only the matching Index Entries: the bucket is untouched, no
bulk-delete call is issued, no error is raised, and the index is exactly
the non-matching entries. -/
theorem C7_soft_delete_frame (cfg : S3StoreModel) (st : S3State) (criteria : Doc → Bool) :
    (s3remove_docs cfg st criteria false).1.bucket = st.bucket ∧
      (s3remove_docs cfg st criteria false).2.1 = [] ∧
      (s3remove_docs cfg st criteria false).2.2 = none ∧
      (s3remove_docs cfg st criteria false).1.index = indexRemoveDocs st.index criteria :=
  ⟨rfl, rfl, rfl, rfl⟩

theorem grouper_nil {α : Type} (n : Nat) : grouper ([] : List α) n = [] := by
  rw [grouper]
  simp

theorem grouper_cons {α : Type} (l : List α) (n : Nat) (hl : l ≠ []) (hn : n ≠ 0) :
    grouper l n = l.take n :: grouper (l.drop n) n := by
  rw [grouper]
  simp [hl, hn]

theorem grouper_join {α : Type} (n : Nat) (hn : n ≠ 0) (l : List α) :
    (grouper l n).flatten = l := by
  rcases eq_or_ne l [] with rfl | hne
  · simp [grouper_nil]
  · rw [grouper_cons l n hne hn]
    have ih := grouper_join n hn (l.drop n)
    simp [List.flatten, ih]
termination_by l.length
decreasing_by
  have h0 : 0 < n := Nat.pos_of_ne_zero hn
  have h1 : 0 < l.length := List.length_pos.mpr hne
  simp [List.length_drop]
  omega

theorem grouper_chunk_le {α : Type} (n : Nat) (l : List α) :
    ∀ c ∈ grouper l n, c.length ≤ n := by
  intro c hc
  rcases eq_or_ne l [] with rfl | hne
  · simp [grouper_nil] at hc
  · rcases eq_or_ne n 0 with rfl | hn
    · rw [grouper] at hc
      simp at hc
    · rw [grouper_cons l n hne hn] at hc
      rcases List.mem_cons.mp hc with hc2 | hc2
      · simp [hc2]
      · exact grouper_chunk_le n (l.drop n) c hc2
termination_by l.length
decreasing_by
  have h0 : 0 < n := Nat.pos_of_ne_zero hn
  have h1 : 0 < l.length := List.length_pos.mpr hne
  simp [List.length_drop]
  omega

theorem grouper_map {α β : Type} (f : α → β) (n : Nat) (hn : n ≠ 0) (l : List α) :
    grouper (l.map f) n = (grouper l n).map (List.map f) := by
  rcases eq_or_ne l [] with rfl | hne
  · simp [grouper_nil]
  · have hne2 : l.map f ≠ [] := by simpa using hne
    rw [grouper_cons l n hne hn, grouper_cons (l.map f) n hne2 hn]
    have ih := grouper_map f n hn (l.drop n)
    simp [← List.map_take, ← List.map_drop, ih]
termination_by l.length
decreasing_by
  have h0 : 0 < n := Nat.pos_of_ne_zero hn
  have h1 : 0 < l.length := List.length_pos.mpr hne
  simp [List.length_drop]
  omega

theorem grouper_sizes_2500 {α : Type} (l : List α) (h : l.length = 2500) :
    (grouper l 1000).map List.length = [1000, 1000, 500] := by
  have h1 : l ≠ [] := by
    intro he
    rw [he] at h
    simp at h
  have hd1 : (l.drop 1000).length = 1500 := by simp [h]
  have hd2 : ((l.drop 1000).drop 1000).length = 500 := by
    simp [List.length_drop]
    omega
  have hd3 : (((l.drop 1000).drop 1000).drop 1000).length = 0 := by
    simp [List.length_drop]
    omega
  have h2 : l.drop 1000 ≠ [] := by
    intro he
    rw [he] at hd1
    simp at hd1
  have h3 : (l.drop 1000).drop 1000 ≠ [] := by
    intro he
    rw [he] at hd2
    simp at hd2
  have h4 : ((l.drop 1000).drop 1000).drop 1000 = [] := List.eq_nil_of_length_eq_zero hd3
  rw [grouper_cons l 1000 h1 (by norm_num),
    grouper_cons (l.drop 1000) 1000 h2 (by norm_num),
    grouper_cons ((l.drop 1000).drop 1000) 1000 h3 (by norm_num), h4, grouper_nil]
  simp [List.length_take, h, hd1, hd2]

/-- Turning a chunk of string values into object keys applies the `sub_dir`
and never fails. -/
theorem chunkObjList_strs (sub_dir : String) (c : List String) :
    chunkObjList sub_dir (c.map Value.str) = .ok (c.map (fun k => sub_dir ++ k)) := by
  induction c with
  | nil => rfl
  | cons k rest ih =>
    simp only [List.map_cons, chunkObjList, List.mapM_cons] at ih ⊢
    rw [ih]
    rfl

/-- The bulk-delete loop on all-string chunks: one call per chunk, in
order, each key prefixed with `sub_dir`, and no error. -/
theorem deleteLoop_strs (sub_dir : String) (chunks : List (List String)) :
    ∀ b, (deleteLoop sub_dir (chunks.map (fun c => c.map Value.str)) b).2 =
      (chunks.map (fun c => c.map (fun k => sub_dir ++ k)), none) := by
  induction chunks with
  | nil => intro b; rfl
  | cons c rest ih =>
    intro b
    have ih2 := ih (bucketDeleteMany b (c.map (fun k => sub_dir ++ k)))
    simp only [List.map_cons, deleteLoop, chunkObjList_strs]
    simp [ih2]


/-- Unfolding of the hard-delete branch of `remove_docs`. -/
theorem s3remove_docs_hard (cfg : S3StoreModel) (st : S3State) (criteria : Doc → Bool) :
    s3remove_docs cfg st criteria true =
      ({ bucket := (deleteLoop cfg.sub_dir
            (grouper (indexDistinct st.index cfg.key criteria) 1000) st.bucket).1
         index := indexRemoveDocs st.index criteria },
        (deleteLoop cfg.sub_dir
          (grouper (indexDistinct st.index cfg.key criteria) 1000) st.bucket).2.1,
        (deleteLoop cfg.sub_dir
          (grouper (indexDistinct st.index cfg.key criteria) 1000) st.bucket).2.2) := by
  rfl

/-- C5: `remove_docs(criteria, remove_s3_object=True)` matching string keys
issues its blob deletions in consecutive chunks of at most 1000 keys per
bulk-delete call, every key carrying the `sub_dir` prefix; for 2500
matching keys exactly 3 calls are issued, of sizes 1000, 1000 and 500. -/
theorem C5_bulk_delete_chunks (cfg : S3StoreModel) (st : S3State) (criteria : Doc → Bool)
    (keys : List String)
    (hkeys : indexDistinct st.index cfg.key criteria = keys.map Value.str)
    (hlen : keys.length = 2500) :
    (s3remove_docs cfg st criteria true).2.2 = none ∧
      (s3remove_docs cfg st criteria true).2.1 =
        (grouper keys 1000).map (List.map (fun k => cfg.sub_dir ++ k)) ∧
      (s3remove_docs cfg st criteria true).2.1.map List.length = [1000, 1000, 500] ∧
      (∀ call ∈ (s3remove_docs cfg st criteria true).2.1, call.length ≤ 1000) ∧
      (s3remove_docs cfg st criteria true).2.1.flatten =
        keys.map (fun k => cfg.sub_dir ++ k) := by
  have hloop := deleteLoop_strs cfg.sub_dir (grouper keys 1000) st.bucket
  have hchunks : grouper (indexDistinct st.index cfg.key criteria) 1000 =
      (grouper keys 1000).map (List.map Value.str) := by
    rw [hkeys, grouper_map Value.str 1000 (by norm_num) keys]
  have hcalls : (s3remove_docs cfg st criteria true).2.1 =
      (grouper keys 1000).map (List.map (fun k => cfg.sub_dir ++ k)) := by
    rw [s3remove_docs_hard, hchunks]
    exact congrArg Prod.fst hloop
  have herr : (s3remove_docs cfg st criteria true).2.2 = none := by
    rw [s3remove_docs_hard, hchunks]
    exact congrArg Prod.snd hloop
  refine ⟨herr, hcalls, ?_, ?_, ?_⟩
  · rw [hcalls, List.map_map]
    have hcomp : List.length ∘ List.map (fun k => cfg.sub_dir ++ k) = List.length := by
      funext c
      simp
    rw [hcomp, grouper_sizes_2500 keys hlen]
  · intro call hcall
    rw [hcalls] at hcall
    obtain ⟨c, hc, rfl⟩ := List.mem_map.mp hcall
    simpa using grouper_chunk_le 1000 keys c hc
  · rw [hcalls, ← List.map_flatten, grouper_join 1000 (by norm_num) keys]

/-- 2500 pairwise-distinct object keys for exercising the bulk-delete path. -/
def c5Keys : List String :=
  (List.range 2500).map (fun i => String.mk (List.replicate i 'a'))

/-- An index holding one entry per key of `c5Keys` under key field `"k"`. -/
def c5Index : List Doc :=
  c5Keys.map (fun s => [("k", Value.str s)])

/-- A store configuration whose key field is `"k"`. -/
def c5Cfg : S3StoreModel :=
  { index := { key := "k", last_updated_field := "lu", collection := "c", oid := 0 }
    bucket := "b", s3_profile := none, compress := false, endpoint_url := none
    sub_dir := "sub/", s3_workers := 4, key := "k", last_updated_field := "lu", oid := 0 }

/-- The store state for the C5 witness. -/
def c5State : S3State := { bucket := [], index := c5Index }

theorem c5Keys_nodup : c5Keys.Nodup := by
  refine List.Nodup.map ?_ (List.nodup_range 2500)
  intro i j hij
  have hdata : List.replicate i 'a' = List.replicate j 'a' := congrArg String.data hij
  have hlen := congrArg List.length hdata
  simpa using hlen

theorem c5_distinct_eq : indexDistinct c5State.index c5Cfg.key (fun _ => true) =
    c5Keys.map Value.str := by
  have hfm : (c5Index.filter (fun _ => true)).filterMap (fun d => docGet d "k") =
      c5Keys.map Value.str := by
    rw [List.filter_true, c5Index, List.filterMap_map]
    have hcomp : ((fun d => docGet d "k") ∘ fun s => [("k", Value.str s)]) =
        some ∘ Value.str := by
      funext s
      simp [docGet, Function.comp]
    rw [hcomp, List.filterMap_eq_map]
  have h1 : c5State.index = c5Index := by simp only [c5State]
  have h2 : c5Cfg.key = "k" := by simp only [c5Cfg]
  unfold indexDistinct
  rw [h1, h2, hfm]
  refine List.dedup_eq_self.mpr ?_
  exact List.Nodup.map (fun a b h => Value.str.inj h) c5Keys_nodup

theorem c5Keys_len : c5Keys.length = 2500 := by simp [c5Keys]

/-- Witness for C5: on a concrete index with 2500 distinct keys, the
hypotheses hold and the deletion issues calls of sizes 1000/1000/500. -/
theorem C5_bulk_delete_chunks_witness :
    indexDistinct c5State.index c5Cfg.key (fun _ => true) = c5Keys.map Value.str ∧
      c5Keys.length = 2500 ∧
      (s3remove_docs c5Cfg c5State (fun _ => true) true).2.1.map List.length =
        [1000, 1000, 500] :=
  ⟨c5_distinct_eq, c5Keys_len,
    (C5_bulk_delete_chunks c5Cfg c5State (fun _ => true) c5Keys c5_distinct_eq c5Keys_len).2.2.1⟩

/-- The key list of a document. -/
def docKeys (d : Doc) : List String := d.map Prod.fst

theorem docGet_none_of_not_mem (d : Doc) (k : String) (h : k ∉ docKeys d) :
    docGet d k = none := by
  induction d with
  | nil => rfl
  | cons kv rest ih =>
    obtain ⟨k', v'⟩ := kv
    simp only [docKeys, List.map_cons, List.mem_cons, not_or] at h
    obtain ⟨h1, h2⟩ := h
    simp only [docGet]
    rw [if_neg (fun he => h1 he.symm)]
    exact ih h2

theorem mem_docKeys_set (d : Doc) (k k2 : String) (v : Value)
    (h : k2 ∈ docKeys (docSet d k v)) : k2 ∈ docKeys d ∨ k2 = k := by
  induction d with
  | nil =>
    simp only [docSet, docKeys, List.map_cons, List.map_nil, List.mem_singleton] at h
    exact Or.inr h
  | cons kv rest ih =>
    obtain ⟨k', v'⟩ := kv
    by_cases hk : k' = k
    · subst hk
      have hset : docSet ((k', v') :: rest) k' v = (k', v) :: rest := by simp [docSet]
      rw [hset] at h
      simp only [docKeys, List.map_cons, List.mem_cons] at h ⊢
      exact Or.inl h
    · simp only [docSet, if_neg hk, docKeys, List.map_cons, List.mem_cons] at h ⊢
      rcases h with h | h
      · exact Or.inl (Or.inl h)
      · rcases ih h with h2 | h2
        · exact Or.inl (Or.inr h2)
        · exact Or.inr h2

theorem docKeys_set_nodup (d : Doc) (k : String) (v : Value) (h : (docKeys d).Nodup) :
    (docKeys (docSet d k v)).Nodup := by
  induction d with
  | nil => simp [docSet, docKeys]
  | cons kv rest ih =>
    obtain ⟨k', v'⟩ := kv
    simp only [docKeys, List.map_cons, List.nodup_cons] at h
    by_cases hk : k' = k
    · subst hk
      have hset : docSet ((k', v') :: rest) k' v = (k', v) :: rest := by simp [docSet]
      rw [hset]
      simp only [docKeys, List.map_cons, List.nodup_cons]
      exact h
    · simp only [docSet, if_neg hk, docKeys, List.map_cons, List.nodup_cons]
      refine ⟨?_, ih h.2⟩
      intro hmem
      rcases mem_docKeys_set rest k k' v hmem with h2 | h2
      · exact h.1 h2
      · exact hk h2

theorem docGet_del_self (d : Doc) (k : String) (h : (docKeys d).Nodup) :
    docGet (docDel d k) k = none := by
  induction d with
  | nil => rfl
  | cons kv rest ih =>
    obtain ⟨k', v'⟩ := kv
    simp only [docKeys, List.map_cons, List.nodup_cons] at h
    by_cases hk : k' = k
    · subst hk
      simp only [docDel, if_pos rfl]
      exact docGet_none_of_not_mem rest k' h.1
    · simp only [docDel, if_neg hk, docGet, if_neg hk]
      exact ih h.2

theorem foldl_docSet_nodup (f : String × Value → String) (l : List (String × Value)) :
    ∀ acc : Doc, (docKeys acc).Nodup →
      (docKeys (l.foldl (fun a kv => docSet a (f kv) kv.2) acc)).Nodup := by
  induction l with
  | nil => intro acc h; exact h
  | cons kv rest ih =>
    intro acc h
    exact ih (docSet acc (f kv) kv.2) (docKeys_set_nodup acc (f kv) kv.2 h)

/-- The merged, lower-cased metadata dictionary has pairwise-distinct keys. -/
theorem lowerMerge_nodup (objMeta index_doc : Doc) :
    (docKeys (lowerMerge objMeta index_doc)).Nodup := by
  unfold lowerMerge
  exact foldl_docSet_nodup (fun kv => strLower kv.1) index_doc _
    (foldl_docSet_nodup (fun kv => strLower kv.1) objMeta [] (by simp [docKeys]))

/-- A plain configuration (no sub_dir, no compression, key field `"k"`)
used by the C8 scenarios. -/
def c8Cfg : S3StoreModel :=
  { index := { key := "k", last_updated_field := "lu", collection := "c", oid := 0 }
    bucket := "b", s3_profile := none, compress := false, endpoint_url := none
    sub_dir := "", s3_workers := 4, key := "k", last_updated_field := "lu", oid := 0 }

/-- Counterexample to C8 as stated: with an Index Entry `{"k": "a"}` and an
existing object `"a"` whose metadata is empty, the merged metadata has no
`_id`, and `rebuild_metadata_from_index` raises `KeyError("_id")`
(`new_meta.pop("_id")` has no default) instead of succeeding. -/
theorem C8_rebuild_keyerror_counterexample :
    (rebuild_metadata_from_index c8Cfg
        { bucket := [("a", { body := [], metadata := [] })]
          index := [[("k", Value.str "a")]] }
        (fun _ => true)).2 = some (PyErr.keyError "_id") := by
  rfl

/-- C8 amended: for an Index Entry matching the criteria whose merged
metadata *does* contain `_id`, the object's metadata is rewritten to the
merge of its existing metadata with the Index Entry's fields, every key
lower-cased, with the `_id` identity field stripped; the body is not
rewritten; but when the merged metadata contains no `_id`, the operation
raises `KeyError` rather than succeeding. -/
theorem C8_rebuild_metadata_amended (cfg : S3StoreModel)
    (bucket : List (String × S3Obj)) (d : Doc) (s : String) (obj : S3Obj)
    (hkey : docGet d cfg.key = some (.str s))
    (hobj : bucketGet bucket (cfg.sub_dir ++ s) = some obj)
    (hid : docHasKey (lowerMerge obj.metadata d) "_id" = true) :
    rebuild_metadata_from_index cfg { bucket := bucket, index := [d] } (fun _ => true) =
      (bucketPut bucket (cfg.sub_dir ++ s)
        { body := obj.body, metadata := docDel (lowerMerge obj.metadata d) "_id" },
        none) ∧
    docGet (docDel (lowerMerge obj.metadata d) "_id") "_id" = none := by
  constructor
  · simp only [rebuild_metadata_from_index, indexQuery, List.filter, rebuildLoop,
      rebuildStep, hkey, hobj, hid, if_pos]
  · exact docGet_del_self _ "_id" (lowerMerge_nodup obj.metadata d)

/-- Witness for C8's amended statement: index entry
`{"k": "a", "_id": 5}`, object metadata `{"K": "x"}`; the rewrite succeeds,
lower-cases `K`, merges the entry and strips `_id`. -/
theorem C8_rebuild_metadata_amended_witness :
    docGet [("k", Value.str "a"), ("_id", Value.int 5)] c8Cfg.key = some (.str "a") ∧
      bucketGet [("a", S3Obj.mk [] [("K", Value.str "x")])] (c8Cfg.sub_dir ++ "a") =
        some (S3Obj.mk [] [("K", Value.str "x")]) ∧
      docHasKey
          (lowerMerge [("K", Value.str "x")] [("k", Value.str "a"), ("_id", Value.int 5)])
          "_id" = true ∧
      rebuild_metadata_from_index c8Cfg
          { bucket := [("a", S3Obj.mk [] [("K", Value.str "x")])]
            index := [[("k", Value.str "a"), ("_id", Value.int 5)]] }
          (fun _ => true) =
        (bucketPut [("a", S3Obj.mk [] [("K", Value.str "x")])] (c8Cfg.sub_dir ++ "a")
          { body := []
            metadata :=
              docDel
                (lowerMerge [("K", Value.str "x")]
                  [("k", Value.str "a"), ("_id", Value.int 5)])
                "_id" },
          none) :=
  ⟨rfl, rfl, rfl,
    (C8_rebuild_metadata_amended c8Cfg [("a", S3Obj.mk [] [("K", Value.str "x")])]
      [("k", Value.str "a"), ("_id", Value.int 5)] "a"
      (S3Obj.mk [] [("K", Value.str "x")]) rfl rfl rfl).1⟩

/-- The document yielded by a query-loop step, if any. -/
def stepOut (q : QStep) : Option Doc :=
  match q with
  | .out d => some d
  | _ => none

theorem stepOut_out (d : Doc) : stepOut (QStep.out d) = some d := rfl

/-- C3: if the candidate Index Entries are `pre ++ [bad] ++ post` where
every entry of `pre` yields a document and `bad`'s blob is missing from the
bucket, the query yields exactly the documents of `pre` — one per entry —
and stops: no exception, and nothing from `post` is yielded or fetched.
In particular three matching entries with the second blob missing yield
exactly the first document. -/
theorem C3_query_stops_on_missing_blob (cfg : S3StoreModel) (st : S3State)
    (criteria : Doc → Bool) (pre post : List Doc) (bad : Doc) (s : String)
    (hsplit : indexQuery st.index criteria = pre ++ bad :: post)
    (hpre : ∀ e ∈ pre, ∃ d, queryStep cfg st.bucket none e = .out d)
    (hbadkey : docGet bad cfg.key = some (.str s))
    (hmiss : bucketGet st.bucket (cfg.sub_dir ++ s) = none) :
    s3query cfg st criteria none =
      (pre.filterMap (fun e => stepOut (queryStep cfg st.bucket none e)), none) ∧
    (s3query cfg st criteria none).1.length = pre.length := by
  have hbad : queryStep cfg st.bucket none bad = .stop := by
    simp [queryStep, queryStep.fetchAndYield, hbadkey, hmiss]
  have hloop : ∀ pre2 : List Doc, (∀ e ∈ pre2, ∃ d, queryStep cfg st.bucket none e = .out d) →
      s3queryLoop cfg st.bucket none (pre2 ++ bad :: post) =
        (pre2.filterMap (fun e => stepOut (queryStep cfg st.bucket none e)), none) := by
    intro pre2
    induction pre2 with
    | nil =>
      intro _
      simp [s3queryLoop, hbad]
    | cons e rest ih =>
      intro hall
      obtain ⟨d, hd⟩ := hall e (by simp)
      have hrest := ih (fun e2 he2 => hall e2 (by simp [he2]))
      simp only [List.cons_append, s3queryLoop, hd, List.append_eq, hrest,
        List.filterMap_cons, stepOut_out]
  have hmain : s3query cfg st criteria none =
      (pre.filterMap (fun e => stepOut (queryStep cfg st.bucket none e)), none) := by
    unfold s3query
    rw [hsplit]
    exact hloop pre hpre
  refine ⟨hmain, ?_⟩
  rw [hmain]
  have hlen : ∀ pre2 : List Doc, (∀ e ∈ pre2, ∃ d, queryStep cfg st.bucket none e = .out d) →
      (pre2.filterMap (fun e => stepOut (queryStep cfg st.bucket none e))).length =
        pre2.length := by
    intro pre2
    induction pre2 with
    | nil => intro _; rfl
    | cons e rest ih =>
      intro hall
      obtain ⟨d, hd⟩ := hall e (by simp)
      have hrest := ih (fun e2 he2 => hall e2 (by simp [he2]))
      rw [List.filterMap_cons, hd, stepOut_out]
      simp [hrest]
  exact hlen pre hpre

/-- Configuration for the C3 witness (same plain configuration). -/
def c3Cfg : S3StoreModel := c8Cfg

/-- Full document behind the first Index Entry. -/
def c3d1 : Doc := [("k", Value.str "a"), ("v", Value.int 1)]

/-- Full document behind the third Index Entry. -/
def c3d3 : Doc := [("k", Value.str "c"), ("v", Value.int 3)]

/-- First Index Entry. -/
def c3e1 : Doc := [("k", Value.str "a")]

/-- Second Index Entry — its blob is missing from the bucket. -/
def c3e2 : Doc := [("k", Value.str "b")]

/-- Third Index Entry. -/
def c3e3 : Doc := [("k", Value.str "c")]

/-- Store state with three matching Index Entries and blobs only for the
first and third. -/
def c3State : S3State :=
  { bucket := [("a", { body := packb c3d1, metadata := c3e1 }),
               ("c", { body := packb c3d3, metadata := c3e3 })]
    index := [c3e1, c3e2, c3e3] }

/-- Witness for C3: three matching entries, second blob missing — exactly
one document (the first) is yielded, and no exception escapes. -/
theorem C3_query_stops_on_missing_blob_witness :
    indexQuery c3State.index (fun _ => true) = [c3e1] ++ c3e2 :: [c3e3] ∧
      bucketGet c3State.bucket (c3Cfg.sub_dir ++ "b") = none ∧
      (s3query c3Cfg c3State (fun _ => true) none).1.length = 1 ∧
      s3query c3Cfg c3State (fun _ => true) none = ([c3d1], none) := by
  have hpre : ∀ e ∈ [c3e1], ∃ d, queryStep c3Cfg c3State.bucket none e = .out d := by
    intro e he
    simp only [List.mem_singleton] at he
    subst he
    exact ⟨c3d1, by rfl⟩
  have happ := C3_query_stops_on_missing_blob c3Cfg c3State (fun _ => true)
    [c3e1] [c3e3] c3e2 "b" rfl hpre rfl rfl
  refine ⟨rfl, rfl, ?_, ?_⟩
  · simpa using happ.2
  · rw [happ.1]
    rfl

/-- If any collected worker future stored an exception, the collection loop
re-raises one of the stored exceptions. -/
theorem collectResults_error (outcomes : List (Except PyErr WriteResult))
    (h : ∃ o ∈ outcomes, ∃ e, o = .error e) :
    ∃ e, collectResults outcomes = .error e ∧ Except.error e ∈ outcomes := by
  induction outcomes with
  | nil => simp at h
  | cons o rest ih =>
    match o with
    | .error e => exact ⟨e, rfl, by simp⟩
    | .ok r =>
      have hrest : ∃ o ∈ rest, ∃ e, o = .error e := by
        obtain ⟨o2, ho2, e2, he2⟩ := h
        rcases List.mem_cons.mp ho2 with h2 | h2
        · rw [h2] at he2
          exact absurd he2 (by simp)
        · exact ⟨o2, h2, e2, he2⟩
      obtain ⟨e, he, hmem⟩ := ih hrest
      refine ⟨e, ?_, by simp [hmem]⟩
      simp only [collectResults, he, Except.map]

/-- C1: if any individual blob write of an `update` batch fails, the whole
`update()` call raises one of the failing writes' errors (the failure is
not swallowed), and the Index Store is left exactly as it was — no Index
Entry is committed for any document of the batch; the successful writes of
the batch still reach the bucket before the error surfaces (the index
commit sits strictly after the barrier over every blob write). -/
theorem C1_update_write_failure_propagates (cfg : S3StoreModel)
    (putFail : String → Option PyErr) (st : S3State) (docs : List Doc)
    (key : Option (List String))
    (h : ∃ d ∈ docs, ∃ e,
      write_doc_to_s3 cfg putFail d (resolveSearchKeys cfg key) = .error e) :
    (s3update cfg putFail st docs key).1.index = st.index ∧
      (∃ e, (s3update cfg putFail st docs key).2 = some e ∧
        ∃ d ∈ docs, write_doc_to_s3 cfg putFail d (resolveSearchKeys cfg key) = .error e) ∧
      (s3update cfg putFail st docs key).1.bucket =
        docs.foldl
          (fun b d =>
            match write_doc_to_s3 cfg putFail d (resolveSearchKeys cfg key) with
            | .ok r => bucketPut b r.objKey r.obj
            | .error _ => b)
          st.bucket := by
  have hout : ∃ o ∈ docs.map
      (fun d => write_doc_to_s3 cfg putFail d (resolveSearchKeys cfg key)), ∃ e, o = .error e := by
    obtain ⟨d, hd, e, he⟩ := h
    exact ⟨.error e, by exact List.mem_map.mpr ⟨d, hd, he⟩, e, rfl⟩
  obtain ⟨e, hcoll, hmem⟩ :=
    collectResults_error (docs.map (fun d => write_doc_to_s3 cfg putFail d (resolveSearchKeys cfg key))) hout
  obtain ⟨d, hd, hde⟩ := List.mem_map.mp hmem
  refine ⟨?_, ⟨e, ?_, d, hd, hde⟩, ?_⟩
  · simp only [s3update, hcoll]
  · simp only [s3update, hcoll]
  · simp only [s3update, hcoll, List.foldl_map]

/-- Configuration for the C1 witness. -/
def c1Cfg : S3StoreModel := c8Cfg

/-- First batch document (its put succeeds). -/
def c1d1 : Doc := [("k", Value.str "a")]

/-- Second batch document (its put fails). -/
def c1d2 : Doc := [("k", Value.str "b")]

/-- Injected backend behavior: the put of object key `"b"` raises. -/
def c1Fail (key : String) : Option PyErr :=
  if key = "b" then some (.putError 7) else none

/-- Starting state with one pre-existing Index Entry. -/
def c1State : S3State := { bucket := [], index := [[("k", Value.str "z")]] }

/-- Witness for C1: a two-document batch whose second blob write fails —
`update` surfaces the error and commits nothing to the index. -/
theorem C1_update_write_failure_propagates_witness :
    write_doc_to_s3 c1Cfg c1Fail c1d2 (resolveSearchKeys c1Cfg none) =
        .error (.putError 7) ∧
      (s3update c1Cfg c1Fail c1State [c1d1, c1d2] none).1.index = c1State.index ∧
      (∃ e, (s3update c1Cfg c1Fail c1State [c1d1, c1d2] none).2 = some e ∧
        ∃ d ∈ [c1d1, c1d2],
          write_doc_to_s3 c1Cfg c1Fail d (resolveSearchKeys c1Cfg none) = .error e) := by
  have h : ∃ d ∈ [c1d1, c1d2], ∃ e,
      write_doc_to_s3 c1Cfg c1Fail d (resolveSearchKeys c1Cfg none) = .error e :=
    ⟨c1d2, by simp, .putError 7, by rfl⟩
  have happ := C1_update_write_failure_propagates c1Cfg c1Fail c1State [c1d1, c1d2] none h
  exact ⟨by rfl, happ.1, happ.2.1⟩

/-- The search document after the optional `sub_dir` tagging, for a
document whose only search key is the store's key field (value `s`). -/
def cleanSD2 (cfg : S3StoreModel) (s : String) : Doc :=
  if cfg.sub_dir ≠ "" then docSet [(cfg.key, Value.str s)] "sub_dir" (.str cfg.sub_dir)
  else [(cfg.key, Value.str s)]

/-- The Index Entry `update` produces for such a document: the key field,
the optional `sub_dir` tag and the optional `compression` marker. -/
def cleanSearchDoc (cfg : S3StoreModel) (s : String) : Doc :=
  if cfg.compress then docSet (cleanSD2 cfg s) "compression" (.str "zlib")
  else cleanSD2 cfg s

theorem cleanSD2_get_other (cfg : S3StoreModel) (s : String) (k2 : String)
    (h1 : k2 ≠ "sub_dir") :
    docGet (cleanSD2 cfg s) k2 = docGet [(cfg.key, Value.str s)] k2 := by
  unfold cleanSD2
  by_cases hs : cfg.sub_dir ≠ ""
  · rw [if_pos hs, docGet_set_ne _ _ _ _ (fun he => h1 he.symm)]
  · rw [if_neg hs]

theorem cleanSearchDoc_get_other (cfg : S3StoreModel) (s : String) (k2 : String)
    (h1 : k2 ≠ "sub_dir") (h2 : k2 ≠ "compression") :
    docGet (cleanSearchDoc cfg s) k2 = docGet [(cfg.key, Value.str s)] k2 := by
  unfold cleanSearchDoc
  by_cases hc : cfg.compress
  · rw [if_pos hc, docGet_set_ne _ _ _ _ (fun he => h2 he.symm), cleanSD2_get_other cfg s k2 h1]
  · rw [if_neg hc, cleanSD2_get_other cfg s k2 h1]

theorem cleanSearchDoc_key (cfg : S3StoreModel) (s : String)
    (hk2 : cfg.key ≠ "sub_dir") (hk3 : cfg.key ≠ "compression") :
    docGet (cleanSearchDoc cfg s) cfg.key = some (.str s) := by
  rw [cleanSearchDoc_get_other cfg s cfg.key hk2 hk3]
  simp [docGet]

theorem cleanSearchDoc_id (cfg : S3StoreModel) (s : String) (hk1 : cfg.key ≠ "_id") :
    docGet (cleanSearchDoc cfg s) "_id" = none := by
  rw [cleanSearchDoc_get_other cfg s "_id" (by decide) (by decide)]
  simp [docGet, hk1]

theorem cleanSearchDoc_luf (cfg : S3StoreModel) (s : String)
    (hl1 : cfg.last_updated_field ≠ cfg.key) (hl2 : cfg.last_updated_field ≠ "sub_dir")
    (hl3 : cfg.last_updated_field ≠ "compression") :
    docGet (cleanSearchDoc cfg s) cfg.last_updated_field = none := by
  rw [cleanSearchDoc_get_other cfg s cfg.last_updated_field hl2 hl3]
  have hne : ¬ cfg.key = cfg.last_updated_field := fun he => hl1 he.symm
  simp [docGet, hne]

theorem cleanSearchDoc_compression (cfg : S3StoreModel) (s : String)
    (hk3 : cfg.key ≠ "compression") :
    docGet (cleanSearchDoc cfg s) "compression" =
      if cfg.compress then some (.str "zlib") else none := by
  unfold cleanSearchDoc
  by_cases hc : cfg.compress
  · rw [if_pos hc, if_pos hc, docGet_set_eq]
  · rw [if_neg hc, if_neg hc, cleanSD2_get_other cfg s "compression" (by decide)]
    simp [docGet, hk3]

theorem write_doc_clean (cfg : S3StoreModel) (D : Doc) (s : String)
    (hkey : docGet D cfg.key = some (.str s))
    (hk1 : cfg.key ≠ "_id") (hk2 : cfg.key ≠ "sub_dir") (hk3 : cfg.key ≠ "compression")
    (hl1 : cfg.last_updated_field ≠ cfg.key) (hl2 : cfg.last_updated_field ≠ "sub_dir")
    (hl3 : cfg.last_updated_field ≠ "compression") :
    write_doc_to_s3 cfg (fun _ => none) D [cfg.key] =
      .ok { objKey := cfg.sub_dir ++ s
            obj := { body := if cfg.compress then zlib_compress (packb D) else packb D
                     metadata := cleanSearchDoc cfg s }
            search_doc := cleanSearchDoc cfg s } := by
  have h0 : buildSearchDoc D [cfg.key] = .ok [(cfg.key, Value.str s)] := by
    simp [buildSearchDoc, hkey, docSet]
  have hsd1 : docSet [(cfg.key, Value.str s)] cfg.key (Value.str s) =
      [(cfg.key, Value.str s)] := by
    simp [docSet]
  have hhid : docHasKey (cleanSD2 cfg s) "_id" = false := by
    simp [docHasKey, cleanSD2_get_other cfg s "_id" (by decide), docGet, hk1]
  have hluf : docHasKey (cleanSearchDoc cfg s) cfg.last_updated_field = false := by
    simp [docHasKey, cleanSearchDoc_luf cfg s hl1 hl2 hl3]
  simp only [write_doc_to_s3, h0, hkey, hsd1, Bind.bind, Except.bind, pyStr]
  have hfold2 : (if cfg.sub_dir ≠ "" then
      docSet [(cfg.key, Value.str s)] "sub_dir" (Value.str cfg.sub_dir)
    else [(cfg.key, Value.str s)]) = cleanSD2 cfg s := rfl
  rw [hfold2, hhid]
  simp only [Bool.false_eq_true, if_false]
  have hfold4 : (if cfg.compress = true then
      docSet (cleanSD2 cfg s) "compression" (Value.str "zlib")
    else cleanSD2 cfg s) = cleanSearchDoc cfg s := rfl
  rw [hfold4, hluf]
  simp only [Bool.false_eq_true, if_false]
  rfl

theorem s3update_single_clean (cfg : S3StoreModel) (D : Doc) (s : String)
    (hkey : docGet D cfg.key = some (.str s))
    (hk1 : cfg.key ≠ "_id") (hk2 : cfg.key ≠ "sub_dir") (hk3 : cfg.key ≠ "compression")
    (hl1 : cfg.last_updated_field ≠ cfg.key) (hl2 : cfg.last_updated_field ≠ "sub_dir")
    (hl3 : cfg.last_updated_field ≠ "compression") :
    s3update cfg (fun _ => none) { bucket := [], index := [] } [D] none =
      ({ bucket := [(cfg.sub_dir ++ s,
            { body := if cfg.compress then zlib_compress (packb D) else packb D
              metadata := cleanSearchDoc cfg s })]
         index := [cleanSearchDoc cfg s] }, none) := by
  have hw := write_doc_clean cfg D s hkey hk1 hk2 hk3 hl1 hl2 hl3
  simp only [s3update, resolveSearchKeys, List.map_cons, List.map_nil, hw,
    List.foldl_cons, List.foldl_nil, collectResults, Except.map, indexUpdate,
    indexUpsert, List.any_nil, Bool.false_eq_true, if_false, List.nil_append,
    bucketPut]

theorem s3query_single_clean (cfg : S3StoreModel) (D : Doc) (s : String)
    (hkey : docGet D cfg.key = some (.str s))
    (hk2 : cfg.key ≠ "sub_dir") (hk3 : cfg.key ≠ "compression") :
    s3query cfg
      { bucket := [(cfg.sub_dir ++ s,
          { body := if cfg.compress then zlib_compress (packb D) else packb D
            metadata := cleanSearchDoc cfg s })]
        index := [cleanSearchDoc cfg s] }
      (fun _ => true) none = ([D], none) := by
  have hqk := cleanSearchDoc_key cfg s hk2 hk3
  have hbg : bucketGet [(cfg.sub_dir ++ s,
      { body := if cfg.compress then zlib_compress (packb D) else packb D
        metadata := cleanSearchDoc cfg s })] (cfg.sub_dir ++ s) =
      some { body := if cfg.compress then zlib_compress (packb D) else packb D
             metadata := cleanSearchDoc cfg s } := by
    simp [bucketGet]
  have hzl : entryIsZlib (cleanSearchDoc cfg s) = cfg.compress := by
    unfold entryIsZlib
    rw [cleanSearchDoc_compression cfg s hk3]
    by_cases hc : cfg.compress <;> simp [hc]
  have hstep : queryStep cfg
      [(cfg.sub_dir ++ s,
        { body := if cfg.compress then zlib_compress (packb D) else packb D
          metadata := cleanSearchDoc cfg s })]
      none (cleanSearchDoc cfg s) = .out D := by
    simp only [queryStep, queryStep.fetchAndYield, hqk, hbg, hzl]
    by_cases hc : cfg.compress
    · simp only [hc, if_true, zlib_decompress, zlib_compress, List.tail_cons, unpackb_packb]
    · simp only [hc, Bool.false_eq_true, if_false, unpackb_packb]
  show s3queryLoop cfg _ none (indexQuery [cleanSearchDoc cfg s] (fun _ => true)) = ([D], none)
  have hiq : indexQuery [cleanSearchDoc cfg s] (fun _ => true) = [cleanSearchDoc cfg s] := by
    simp [indexQuery]
  rw [hiq]
  simp only [s3queryLoop, hstep]

/-- C2: a document `D` (string-valued key field; store key and last-updated
field distinct from the `_id`/`sub_dir`/`compression` bookkeeping names)
written to an empty store via `update([D])` and read back via `query` with
no properties restriction is returned exactly: serialization, optional zlib
compression, blob storage, decompression and deserialization round-trip,
and the `compression`/`sub_dir` bookkeeping fields recorded on the Index
Entry never appear in the returned document (when absent from `D`, they are
absent from the result). -/
theorem C2_update_query_roundtrip (cfg : S3StoreModel) (D : Doc) (s : String)
    (hkey : docGet D cfg.key = some (.str s))
    (hk1 : cfg.key ≠ "_id") (hk2 : cfg.key ≠ "sub_dir") (hk3 : cfg.key ≠ "compression")
    (hl1 : cfg.last_updated_field ≠ cfg.key) (hl2 : cfg.last_updated_field ≠ "sub_dir")
    (hl3 : cfg.last_updated_field ≠ "compression") :
    (s3update cfg (fun _ => none) { bucket := [], index := [] } [D] none).2 = none ∧
      s3query cfg (s3update cfg (fun _ => none) { bucket := [], index := [] } [D] none).1
        (fun _ => true) none = ([D], none) ∧
      (docGet D "compression" = none ∧ docGet D "sub_dir" = none →
        ∀ d2 ∈ (s3query cfg
            (s3update cfg (fun _ => none) { bucket := [], index := [] } [D] none).1
            (fun _ => true) none).1,
          docGet d2 "compression" = none ∧ docGet d2 "sub_dir" = none) := by
  have hupd := s3update_single_clean cfg D s hkey hk1 hk2 hk3 hl1 hl2 hl3
  have hq := s3query_single_clean cfg D s hkey hk2 hk3
  rw [hupd]
  refine ⟨rfl, hq, ?_⟩
  intro hnone d2 hd2
  rw [hq] at hd2
  simp only [List.mem_singleton] at hd2
  subst hd2
  exact hnone

/-- Configuration for the C2 witness: compression on and a `sub_dir`
prefix, so the round trip crosses both the compression and prefixing
paths. -/
def c2Cfg : S3StoreModel :=
  { index := { key := "task_id", last_updated_field := "last_updated", collection := "c"
               oid := 0 }
    bucket := "b", s3_profile := none, compress := true, endpoint_url := none
    sub_dir := "p/", s3_workers := 4, key := "task_id", last_updated_field := "last_updated"
    oid := 0 }

/-- The C2 witness document. -/
def c2D : Doc := [("task_id", Value.str "t1"), ("data", Value.int 5)]

/-- Witness for C2: the concrete document `c2D` round-trips through a
compressed, prefixed store and comes back exactly. -/
theorem C2_update_query_roundtrip_witness :
    docGet c2D c2Cfg.key = some (.str "t1") ∧
      s3query c2Cfg
        (s3update c2Cfg (fun _ => none) { bucket := [], index := [] } [c2D] none).1
        (fun _ => true) none = ([c2D], none) :=
  ⟨rfl,
    (C2_update_query_roundtrip c2Cfg c2D "t1" rfl (by decide) (by decide) (by decide)
      (by decide) (by decide) (by decide)).2.1⟩
